import Mathlib

/-!
Verification of the il-representations representation-learning engine.

Shallow embedding of the components referenced by the specification:
* `QueueBatchExtender` from `algos/batch_extenders.py` (negative-sample ring buffer);
* the kwargs plumbing of `RepresentationLearner.__init__` from
  `src/il_representations/algos/representation_learner.py`;
* the epoch loop of `RepresentationLearner.learn`;
* the `Augmenter` variants from `algos/augmenters.py`;
* the `ProjectionHead` / `MomentumProjectionHead` decoders from
  `src/il_representations/algos/decoders.py`.

Queue tensors move float values verbatim (no arithmetic), so they are modelled
over `ℚ`; decoder forward passes use `torch.exp`, so they are modelled over `ℝ`.
-/

namespace ILRep

/-! ## Queue-based batch extender (`algos/batch_extenders.py`) -/

/-- `torch.distributions.Normal(loc, scale)` as used by `QueueBatchExtender`:
a batch of per-coordinate normal distributions, kept as the raw `loc` and
`scale` tensors (batch of rows).  The repository constructs these without
argument validation, so a `Normal` value simply carries both tensors. -/
structure NormalDist where
  loc : List (List ℚ)
  scale : List (List ℚ)
deriving DecidableEq

/-- `QueueBatchExtender` state (`batch_extenders.py:28-36`): a fixed-capacity
ring buffer of `(loc, scale)` rows plus a write cursor. -/
structure QueueBatchExtender where
  queue_size : ℕ
  representation_dim : ℕ
  sample : Bool
  queue_loc : List (List ℚ)
  queue_scale : List (List ℚ)
  queue_ptr : ℕ
deriving DecidableEq

/-- `QueueBatchExtender.__init__` (`batch_extenders.py:29-36`).  The source
fills both buffers with `torch.randn(queue_size, queue_dim)`; a standard-normal
draw is an arbitrary real matrix, so the two initial buffers are taken as
explicit arguments `init_loc`, `init_scale`. -/
def QueueBatchExtender.init (queue_size queue_dim : ℕ) (sample : Bool)
    (init_loc init_scale : List (List ℚ)) : QueueBatchExtender :=
  { queue_size := queue_size
    representation_dim := queue_dim
    sample := sample
    queue_loc := init_loc
    queue_scale := init_scale
    queue_ptr := 0 }

/-- Torch slice assignment `buf[p : p + vals.length] = vals` along the batch
axis.  Python slicing clamps both bounds to the buffer length; torch then
requires the assigned value's batch size to equal the slice length (the clamped
slice is never longer than `vals`, and a shorter slice is not broadcast-
compatible with a batch of two or more rows), otherwise it raises a shape
mismatch `RuntimeError` and leaves the buffer unchanged. -/
def sliceAssign (buf : List (List ℚ)) (p : ℕ) (vals : List (List ℚ)) :
    Except String (List (List ℚ)) :=
  let lo := min p buf.length
  let hi := min (p + vals.length) buf.length
  if hi - lo = vals.length then
    .ok (buf.take lo ++ vals ++ buf.drop hi)
  else
    .error "RuntimeError: shape mismatch in queue slice assignment"

/-- `QueueBatchExtender.__call__` (`batch_extenders.py:38-53`): snapshot the
queue (`clone().detach()` copies values), write the current target batch into
slots `[queue_ptr, queue_ptr + batch_size)`, advance the cursor modulo
`queue_size`, and return the context unchanged together with the current batch
concatenated with the pre-overwrite snapshot.  A failed slice assignment
propagates as the raised exception, leaving the object state unchanged. -/
def QueueBatchExtender.call (q : QueueBatchExtender)
    (context_dist target_dist : NormalDist) :
    Except String (QueueBatchExtender × NormalDist × NormalDist) := do
  let targets_loc := target_dist.loc
  let targets_scale := target_dist.scale
  let batch_size := targets_loc.length
  let queue_targets_scale := q.queue_scale
  let queue_targets_loc := q.queue_loc
  let new_loc ← sliceAssign q.queue_loc q.queue_ptr targets_loc
  let new_scale ← sliceAssign q.queue_scale q.queue_ptr targets_scale
  let new_ptr := (q.queue_ptr + batch_size) % q.queue_size
  let merged_loc := targets_loc ++ queue_targets_loc
  let merged_scale := targets_scale ++ queue_targets_scale
  return ({ q with queue_loc := new_loc, queue_scale := new_scale, queue_ptr := new_ptr },
          context_dist,
          { loc := merged_loc, scale := merged_scale })

/-- Repeated insertion: run `__call__` on each target batch in order, threading
the extender state (the context argument is irrelevant to the queue state). -/
def QueueBatchExtender.insertBatches (cd : NormalDist) :
    QueueBatchExtender → List NormalDist → Except String QueueBatchExtender
  | q, [] => .ok q
  | q, t :: ts =>
    match q.call cd t with
    | .error e => .error e
    | .ok r => QueueBatchExtender.insertBatches cd r.1 ts

/-- Strict positivity of every spread coordinate of a distribution
(the `RepresentationDistribution` invariant stated by the specification). -/
def NormalDist.spreadPos (d : NormalDist) : Prop :=
  ∀ row ∈ d.scale, ∀ x ∈ row, 0 < x

instance (d : NormalDist) : Decidable d.spreadPos := by
  unfold NormalDist.spreadPos; infer_instance

/-- A slice assignment that fits inside the buffer succeeds and replaces
exactly the slots `[p, p + vals.length)`. -/
theorem sliceAssign_ok (buf : List (List ℚ)) (p : ℕ) (vals : List (List ℚ))
    (h : p + vals.length ≤ buf.length) :
    sliceAssign buf p vals = .ok (buf.take p ++ vals ++ buf.drop (p + vals.length)) := by
  unfold sliceAssign
  have h1 : min p buf.length = p := by omega
  have h2 : min (p + vals.length) buf.length = p + vals.length := by omega
  simp [h1, h2]

/-- A slice assignment that runs past the end of the buffer raises the shape
mismatch error (the clamped slice is shorter than the assigned batch). -/
theorem sliceAssign_err (buf : List (List ℚ)) (p : ℕ) (vals : List (List ℚ))
    (hp : p ≤ buf.length) (h : buf.length < p + vals.length) :
    sliceAssign buf p vals =
      .error "RuntimeError: shape mismatch in queue slice assignment" := by
  unfold sliceAssign
  have h1 : min p buf.length = p := by omega
  have h2 : min (p + vals.length) buf.length = buf.length := by omega
  rw [h1, h2, if_neg (by omega)]

/-- Canonical form of a successful `__call__` when the write fits without
wrapping: the written state and the merged output. -/
theorem QueueBatchExtender.call_ok (q : QueueBatchExtender) (cd td : NormalDist)
    (hloc : q.queue_loc.length = q.queue_size)
    (hscale : q.queue_scale.length = q.queue_size)
    (hsc : td.scale.length = td.loc.length)
    (hfit : q.queue_ptr + td.loc.length ≤ q.queue_size) :
    q.call cd td = .ok
      ({ q with
          queue_loc := q.queue_loc.take q.queue_ptr ++ td.loc ++
            q.queue_loc.drop (q.queue_ptr + td.loc.length)
          queue_scale := q.queue_scale.take q.queue_ptr ++ td.scale ++
            q.queue_scale.drop (q.queue_ptr + td.loc.length)
          queue_ptr := (q.queue_ptr + td.loc.length) % q.queue_size },
       cd, { loc := td.loc ++ q.queue_loc, scale := td.scale ++ q.queue_scale }) := by
  simp only [QueueBatchExtender.call]
  rw [sliceAssign_ok _ _ _ (by omega), sliceAssign_ok _ _ _ (by omega), hsc]
  rfl

/-- On any successful call the returned context is unchanged and the merged
target is the current batch followed by the pre-overwrite snapshot. -/
theorem QueueBatchExtender.call_ok_merged (q : QueueBatchExtender)
    (cd td : NormalDist) (r : QueueBatchExtender × NormalDist × NormalDist)
    (hok : q.call cd td = .ok r) :
    r.2.1 = cd ∧ r.2.2.loc = td.loc ++ q.queue_loc ∧
      r.2.2.scale = td.scale ++ q.queue_scale := by
  simp only [QueueBatchExtender.call] at hok
  cases h1 : sliceAssign q.queue_loc q.queue_ptr td.loc with
  | error e =>
    rw [h1] at hok
    simp only [bind, Except.bind] at hok
    cases hok
  | ok nl =>
    cases h2 : sliceAssign q.queue_scale q.queue_ptr td.scale with
    | error e =>
      rw [h1, h2] at hok
      simp only [bind, Except.bind, Functor.map, Except.map] at hok
      cases hok
    | ok ns =>
      rw [h1, h2] at hok
      simp only [bind, Except.bind, Functor.map, Except.map, pure, Except.pure,
        Except.ok.injEq] at hok
      subst hok
      exact ⟨rfl, rfl, rfl⟩

/-- Dropping past an initial chunk of known length drops into the tail. -/
theorem drop_append_chunk {α : Type} (xs ys : List α) (n m : ℕ)
    (h : xs.length = n) :
    List.drop (n + m) (xs ++ ys) = List.drop m ys := by
  rw [← List.drop_drop, List.drop_left' h]

/-- No-wrap iterated insertion: starting with cursor `p < queue_size`, inserting
batches whose total size fits in the remaining capacity succeeds, overwrites
exactly the slots `[p, p + total)` with the batches in order, and leaves the
cursor at `(p + total) % queue_size`. -/
theorem QueueBatchExtender.insertBatches_no_wrap (cd : NormalDist)
    (bs : List NormalDist) :
    ∀ q : QueueBatchExtender,
      q.queue_loc.length = q.queue_size →
      q.queue_scale.length = q.queue_size →
      0 < q.queue_size →
      q.queue_ptr < q.queue_size →
      (∀ t ∈ bs, t.scale.length = t.loc.length ∧ 0 < t.loc.length) →
      q.queue_ptr + (bs.map (fun t => t.loc.length)).sum ≤ q.queue_size →
      QueueBatchExtender.insertBatches cd q bs = .ok
        { q with
          queue_loc := q.queue_loc.take q.queue_ptr ++ (bs.map (fun t => t.loc)).flatten ++
            q.queue_loc.drop (q.queue_ptr + (bs.map (fun t => t.loc.length)).sum)
          queue_scale := q.queue_scale.take q.queue_ptr ++ (bs.map (fun t => t.scale)).flatten ++
            q.queue_scale.drop (q.queue_ptr + (bs.map (fun t => t.loc.length)).sum)
          queue_ptr := (q.queue_ptr + (bs.map (fun t => t.loc.length)).sum) % q.queue_size } := by
  induction bs with
  | nil =>
    intro q hloc hscale hqs hptr _ _
    simp only [QueueBatchExtender.insertBatches, List.map_nil, List.sum_nil,
      List.flatten_nil, Nat.add_zero, List.append_nil, List.take_append_drop,
      Nat.mod_eq_of_lt hptr]
  | cons t rest ih =>
    intro q hloc hscale hqs hptr hb hfit
    simp only [List.map_cons, List.sum_cons] at hfit ⊢
    have hbt := hb t (List.mem_cons_self t rest)
    have hfit1 : q.queue_ptr + t.loc.length ≤ q.queue_size := by omega
    have hcall := QueueBatchExtender.call_ok q cd t hloc hscale hbt.1 hfit1
    simp only [QueueBatchExtender.insertBatches, hcall]
    have hlen1 : (q.queue_loc.take q.queue_ptr ++ t.loc).length = q.queue_ptr + t.loc.length := by
      simp [List.length_take]; omega
    have hlen1s : (q.queue_scale.take q.queue_ptr ++ t.scale).length = q.queue_ptr + t.loc.length := by
      simp [List.length_take]; omega
    by_cases hcase : q.queue_ptr + t.loc.length < q.queue_size
    · -- the write leaves the cursor strictly inside the buffer; recurse
      have hmod : (q.queue_ptr + t.loc.length) % q.queue_size = q.queue_ptr + t.loc.length :=
        Nat.mod_eq_of_lt hcase
      have hq1loc : (q.queue_loc.take q.queue_ptr ++ t.loc ++
          q.queue_loc.drop (q.queue_ptr + t.loc.length)).length = q.queue_size := by
        simp [List.length_take, List.length_drop]; omega
      have hq1scale : (q.queue_scale.take q.queue_ptr ++ t.scale ++
          q.queue_scale.drop (q.queue_ptr + t.loc.length)).length = q.queue_size := by
        simp [List.length_take, List.length_drop]; omega
      have hrec := ih { q with
          queue_loc := q.queue_loc.take q.queue_ptr ++ t.loc ++
            q.queue_loc.drop (q.queue_ptr + t.loc.length)
          queue_scale := q.queue_scale.take q.queue_ptr ++ t.scale ++
            q.queue_scale.drop (q.queue_ptr + t.loc.length)
          queue_ptr := (q.queue_ptr + t.loc.length) % q.queue_size }
        hq1loc hq1scale hqs (by simpa [hmod] using hcase)
        (fun u hu => hb u (List.mem_cons_of_mem t hu)) (by simp [hmod]; omega)
      rw [hrec]
      simp only [hmod]
      have eDropLoc : List.drop (q.queue_ptr + t.loc.length +
            (rest.map (fun t => t.loc.length)).sum)
          (q.queue_loc.take q.queue_ptr ++ t.loc ++
            q.queue_loc.drop (q.queue_ptr + t.loc.length)) =
          List.drop (q.queue_ptr + t.loc.length +
            (rest.map (fun t => t.loc.length)).sum) q.queue_loc := by
        rw [drop_append_chunk _ _ _ _ hlen1, List.drop_drop]
      have eDropScale : List.drop (q.queue_ptr + t.loc.length +
            (rest.map (fun t => t.loc.length)).sum)
          (q.queue_scale.take q.queue_ptr ++ t.scale ++
            q.queue_scale.drop (q.queue_ptr + t.loc.length)) =
          List.drop (q.queue_ptr + t.loc.length +
            (rest.map (fun t => t.loc.length)).sum) q.queue_scale := by
        rw [drop_append_chunk _ _ _ _ hlen1s, List.drop_drop]
      rw [List.take_left' hlen1, List.take_left' hlen1s, eDropLoc, eDropScale]
      simp [List.append_assoc, Nat.add_assoc]
    · -- the write ends exactly at the buffer end: the remaining batches are empty
      have hend : q.queue_ptr + t.loc.length = q.queue_size := by omega
      have hrest : rest = [] := by
        cases rest with
        | nil => rfl
        | cons u us =>
          have hu := hb u (List.mem_cons_of_mem t (List.mem_cons_self u us))
          simp [List.sum_cons] at hfit
          omega
      subst hrest
      simp only [QueueBatchExtender.insertBatches, List.map_nil, List.sum_nil,
        List.flatten_nil, List.flatten_cons, Nat.add_zero, List.append_nil]

/-- C3 (functional correctness of a `QueueBatchExtender` call): on every call
that returns, the context distribution is returned unchanged, and the merged
target is the current batch concatenated with the pre-overwrite queue snapshot
— the current batch appears once, never also inside the snapshot written on
the same call — with batch-axis size `batch_size + queue_size`. -/
theorem C3_queue_snapshot_before_write (q : QueueBatchExtender)
    (cd td : NormalDist) (r : QueueBatchExtender × NormalDist × NormalDist)
    (hloc : q.queue_loc.length = q.queue_size)
    (hscale : q.queue_scale.length = q.queue_size)
    (hok : q.call cd td = .ok r) :
    r.2.1 = cd ∧
    r.2.2.loc = td.loc ++ q.queue_loc ∧
    r.2.2.scale = td.scale ++ q.queue_scale ∧
    r.2.2.loc.length = td.loc.length + q.queue_size ∧
    r.2.2.scale.length = td.scale.length + q.queue_size := by
  obtain ⟨h1, h2, h3⟩ := QueueBatchExtender.call_ok_merged q cd td r hok
  refine ⟨h1, h2, h3, ?_, ?_⟩ <;> simp [h2, h3, hloc, hscale]

/-- Concrete instance for C3. -/
theorem C3_queue_snapshot_before_write_witness :
    ∃ r, (QueueBatchExtender.init 2 1 false [[5], [6]] [[7], [8]]).call
        ⟨[[1]], [[1]]⟩ ⟨[[2]], [[3]]⟩ = .ok r ∧
      r.2.1 = ⟨[[1]], [[1]]⟩ ∧
      r.2.2.loc = [[2], [5], [6]] ∧
      r.2.2.scale = [[3], [7], [8]] ∧
      r.2.2.loc.length = 1 + 2 ∧
      r.2.2.scale.length = 1 + 2 := by
  refine ⟨_, rfl, ?_⟩
  have h := C3_queue_snapshot_before_write
    (QueueBatchExtender.init 2 1 false [[5], [6]] [[7], [8]])
    ⟨[[1]], [[1]]⟩ ⟨[[2]], [[3]]⟩ _ rfl rfl rfl
  exact h

/-- C4 (queue wraparound under exact division): with `queue_ptr = 0` and
`batch_size ∣ queue_size`, inserting `queue_size / batch_size` batches of size
`batch_size` succeeds, leaves `queue_ptr = 0`, and overwrites every
initialization slot exactly once (the final buffers are exactly the inserted
batches, in order, of unchanged total length `queue_size`); one further batch
then overwrites exactly slots `[0, batch_size)` and no slot outside the
buffer. -/
theorem C4_queue_exact_division (q : QueueBatchExtender) (cd : NormalDist)
    (bs : List NormalDist) (extra : NormalDist) (b : ℕ)
    (hb : 0 < b)
    (hdvd : b ∣ q.queue_size)
    (hqs : 0 < q.queue_size)
    (hk : bs.length = q.queue_size / b)
    (hbs : ∀ t ∈ bs, t.loc.length = b ∧ t.scale.length = b)
    (hptr : q.queue_ptr = 0)
    (hloc : q.queue_loc.length = q.queue_size)
    (hscale : q.queue_scale.length = q.queue_size)
    (hextra : extra.loc.length = b) (hextrasc : extra.scale.length = b) :
    ∃ qf : QueueBatchExtender,
      QueueBatchExtender.insertBatches cd q bs = .ok qf ∧
      qf.queue_ptr = 0 ∧
      qf.queue_loc = (bs.map (fun t => t.loc)).flatten ∧
      qf.queue_scale = (bs.map (fun t => t.scale)).flatten ∧
      qf.queue_loc.length = q.queue_size ∧
      qf.queue_scale.length = q.queue_size ∧
      ∃ r, qf.call cd extra = .ok r ∧
        r.1.queue_loc = extra.loc ++ qf.queue_loc.drop b ∧
        r.1.queue_scale = extra.scale ++ qf.queue_scale.drop b ∧
        r.1.queue_loc.length = q.queue_size ∧
        r.1.queue_scale.length = q.queue_size ∧
        r.1.queue_ptr = b % q.queue_size := by
  have hsum : (bs.map (fun t => t.loc.length)).sum = q.queue_size := by
    have e : bs.map (fun t => t.loc.length) = bs.map (fun _ => b) :=
      List.map_congr_left (fun t ht => (hbs t ht).1)
    rw [e]
    simp only [List.map_const', List.sum_replicate, smul_eq_mul, hk]
    exact Nat.div_mul_cancel hdvd
  have hsum2 : (bs.map (fun t => t.scale.length)).sum = q.queue_size := by
    have e : bs.map (fun t => t.scale.length) = bs.map (fun _ => b) :=
      List.map_congr_left (fun t ht => (hbs t ht).2)
    rw [e]
    simp only [List.map_const', List.sum_replicate, smul_eq_mul, hk]
    exact Nat.div_mul_cancel hdvd
  have hins := QueueBatchExtender.insertBatches_no_wrap cd bs q hloc hscale hqs
    (by omega)
    (fun t ht => ⟨by rw [(hbs t ht).2, (hbs t ht).1], by rw [(hbs t ht).1]; exact hb⟩)
    (by omega)
  rw [hptr] at hins
  simp only [Nat.zero_add, hsum, List.take_zero, List.nil_append,
    Nat.mod_self] at hins
  rw [List.drop_eq_nil_of_le (by omega), List.drop_eq_nil_of_le (by omega),
    List.append_nil, List.append_nil] at hins
  have hblen : ((bs.map (fun t => t.loc)).flatten).length = q.queue_size := by
    rw [List.length_flatten, List.map_map]
    exact hsum
  have hslen : ((bs.map (fun t => t.scale)).flatten).length = q.queue_size := by
    rw [List.length_flatten, List.map_map]
    exact hsum2
  refine ⟨_, hins, rfl, rfl, rfl, hblen, hslen, ?_⟩
  · have hble : b ≤ q.queue_size := Nat.le_of_dvd hqs hdvd
    have hcall := QueueBatchExtender.call_ok
      { q with
        queue_loc := (bs.map (fun t => t.loc)).flatten
        queue_scale := (bs.map (fun t => t.scale)).flatten
        queue_ptr := 0 }
      cd extra (by simpa using hblen) (by simpa using hslen)
      (by rw [hextra, hextrasc]) (by simp [hextra]; omega)
    refine ⟨_, hcall, ?_, ?_, ?_, ?_, ?_⟩
    · simp [hextra]
    · simp [hextra]
    · simp [List.length_drop, hextra, hblen]; omega
    · simp [List.length_drop, hextra, hextrasc, hslen]; omega
    · simp [hextra]

/-- Concrete instance for C4: `queue_size = 2`, `batch_size = 1`, two inserts
and one further insert. -/
theorem C4_queue_exact_division_witness :
    ∃ qf : QueueBatchExtender,
      QueueBatchExtender.insertBatches ⟨[[0]], [[1]]⟩
          (QueueBatchExtender.init 2 1 false [[9], [9]] [[9], [9]])
          [⟨[[1]], [[2]]⟩, ⟨[[3]], [[4]]⟩] = .ok qf ∧
      qf.queue_ptr = 0 ∧
      qf.queue_loc = ([⟨[[1]], [[2]]⟩, ⟨[[3]], [[4]]⟩].map
        (fun t : NormalDist => t.loc)).flatten ∧
      qf.queue_scale = ([⟨[[1]], [[2]]⟩, ⟨[[3]], [[4]]⟩].map
        (fun t : NormalDist => t.scale)).flatten ∧
      qf.queue_loc.length = (QueueBatchExtender.init 2 1 false [[9], [9]] [[9], [9]]).queue_size ∧
      qf.queue_scale.length = (QueueBatchExtender.init 2 1 false [[9], [9]] [[9], [9]]).queue_size ∧
      ∃ r, qf.call ⟨[[0]], [[1]]⟩ ⟨[[5]], [[6]]⟩ = .ok r ∧
        r.1.queue_loc = [[5]] ++ qf.queue_loc.drop 1 ∧
        r.1.queue_scale = [[6]] ++ qf.queue_scale.drop 1 ∧
        r.1.queue_loc.length = (QueueBatchExtender.init 2 1 false [[9], [9]] [[9], [9]]).queue_size ∧
        r.1.queue_scale.length = (QueueBatchExtender.init 2 1 false [[9], [9]] [[9], [9]]).queue_size ∧
        r.1.queue_ptr = 1 % (QueueBatchExtender.init 2 1 false [[9], [9]] [[9], [9]]).queue_size :=
  C4_queue_exact_division (QueueBatchExtender.init 2 1 false [[9], [9]] [[9], [9]])
    ⟨[[0]], [[1]]⟩ [⟨[[1]], [[2]]⟩, ⟨[[3]], [[4]]⟩] ⟨[[5]], [[6]]⟩ 1
    (by decide) (by decide) (by decide) (by decide) (by decide)
    rfl rfl rfl rfl rfl

/-- C5 as stated is false: when `queue_ptr + batch_size` exceeds `queue_size`
the write does not wrap around — torch clamps the slice to
`[queue_ptr, queue_size)` and raises a shape-mismatch error.  Concrete input:
`queue_size = 3`, two batches of size 2; the first call moves the cursor to 2,
the second call (cursor 2, batch 2) fails instead of wrapping. -/
theorem C5_counterexample :
    ((QueueBatchExtender.init 3 1 false [[0], [0], [0]] [[9], [9], [9]]).call
        ⟨[[1]], [[1]]⟩ ⟨[[10], [11]], [[1], [1]]⟩).bind
      (fun r1 => r1.1.call ⟨[[1]], [[1]]⟩ ⟨[[12], [13]], [[1], [1]]⟩) =
    .error "RuntimeError: shape mismatch in queue slice assignment" := by
  rfl

/-- C5 amended: whenever `queue_ptr + batch_size` exceeds `queue_size` (with
the cursor inside the buffer, as maintained by the modulo update), the call
raises the shape-mismatch error: no wrap-around write and no state change
occur. -/
theorem C5_no_wraparound_write (q : QueueBatchExtender) (cd td : NormalDist)
    (hloc : q.queue_loc.length = q.queue_size)
    (hptr : q.queue_ptr < q.queue_size)
    (hover : q.queue_size < q.queue_ptr + td.loc.length) :
    q.call cd td = .error "RuntimeError: shape mismatch in queue slice assignment" := by
  simp only [QueueBatchExtender.call]
  rw [sliceAssign_err _ _ _ (by omega) (by omega)]
  rfl

/-- A reachable queue state with the cursor at 2 in a buffer of size 3
(obtained from a fresh extender by one insertion of batch size 2). -/
def queueAtCursorTwo : QueueBatchExtender :=
  { queue_size := 3, representation_dim := 1, sample := false,
    queue_loc := [[10], [11], [0]], queue_scale := [[1], [1], [9]],
    queue_ptr := 2 }

/-- Concrete instance for C5's amended statement. -/
theorem C5_no_wraparound_write_witness :
    queueAtCursorTwo.call ⟨[[1]], [[1]]⟩ ⟨[[12], [13]], [[1], [1]]⟩ =
    .error "RuntimeError: shape mismatch in queue slice assignment" :=
  C5_no_wraparound_write _ _ _ rfl (by decide) (by decide)

/-- C7 as stated is false: the queue buffers are initialised with standard
normal draws (`torch.randn`), which can be negative, and a call made before
every slot has been overwritten returns those draws inside the merged target's
spread.  Concrete input: `queue_size = 2`, one slot still holding the draw
`-1`; the merged spread contains `-1`. -/
theorem C7_counterexample :
    ∃ r, (QueueBatchExtender.init 2 1 false [[0], [0]] [[-1], [2]]).call
        ⟨[[0]], [[1]]⟩ ⟨[[3]], [[1]]⟩ = .ok r ∧ ¬ r.2.2.spreadPos := by
  refine ⟨_, rfl, ?_⟩
  decide

/-- C7 amended for the queue-based batch extender: once every queue slot holds
a strictly positive spread (true after the warm-up phase has overwritten all
initialization slots with real target spreads, but not guaranteed before), the
merged target distribution of any successful call has strictly positive spread
in every coordinate; and whenever mean and spread have identical shape — the
same batch size and the same per-row dimensions — in the current target batch
and in the queue buffers, the merged mean and spread also have identical
batch size and identical per-row dimensions (equal length profiles). -/
theorem C7_merged_spread_positive (q : QueueBatchExtender) (cd td : NormalDist)
    (r : QueueBatchExtender × NormalDist × NormalDist)
    (hq : ∀ row ∈ q.queue_scale, ∀ x ∈ row, 0 < x)
    (htd : td.spreadPos)
    (hok : q.call cd td = .ok r) :
    r.2.2.spreadPos ∧
    (td.loc.map List.length = td.scale.map List.length →
      q.queue_loc.map List.length = q.queue_scale.map List.length →
      r.2.2.loc.length = r.2.2.scale.length ∧
      r.2.2.loc.map List.length = r.2.2.scale.map List.length) := by
  obtain ⟨-, h2, h3⟩ := QueueBatchExtender.call_ok_merged q cd td r hok
  constructor
  · intro row hrow x hx
    rw [h3, List.mem_append] at hrow
    cases hrow with
    | inl h => exact htd row h x hx
    | inr h => exact hq row h x hx
  · intro e1 e2
    have emap : r.2.2.loc.map List.length = r.2.2.scale.map List.length := by
      rw [h2, h3, List.map_append, List.map_append, e1, e2]
    refine ⟨?_, emap⟩
    have hlen := congrArg List.length emap
    simpa using hlen

/-- A queue state whose every spread slot is strictly positive. -/
def queueWarmedUp : QueueBatchExtender :=
  { queue_size := 2, representation_dim := 1, sample := false,
    queue_loc := [[3], [0]], queue_scale := [[1], [2]], queue_ptr := 1 }

/-- Concrete instance for C7's amended statement. -/
theorem C7_merged_spread_positive_witness :
    ∃ r, queueWarmedUp.call ⟨[[0]], [[1]]⟩ ⟨[[4]], [[5]]⟩ = .ok r ∧
      r.2.2.spreadPos ∧ r.2.2.loc.length = r.2.2.scale.length ∧
      r.2.2.loc.map List.length = r.2.2.scale.map List.length := by
  refine ⟨_, rfl, ?_⟩
  have h := C7_merged_spread_positive queueWarmedUp
    ⟨[[0]], [[1]]⟩ ⟨[[4]], [[5]]⟩ _ (by decide) (by decide) rfl
  exact ⟨h.1, (h.2 rfl rfl).1, (h.2 rfl rfl).2⟩

/-! ## Batch-extender construction in `RepresentationLearner.__init__`
(`src/il_representations/algos/representation_learner.py:94-104`) -/

/-- Keyword parameter names of `QueueBatchExtender.__init__`
(`batch_extenders.py:29`): `queue_size`, `queue_dim`, `sample`.  The override
has no `**kwargs` collector (the parent's catch-all `__init__` is replaced). -/
def queueBatchExtenderInitParams : List String := ["queue_size", "queue_dim", "sample"]

/-- The parameters of `QueueBatchExtender.__init__` that have no default. -/
def queueBatchExtenderInitRequired : List String := ["queue_size", "queue_dim"]

/-- Python call `f(**kwargs)` against a signature without a `**kwargs`
collector: succeeds iff every provided keyword names a parameter and every
parameter without a default is provided; otherwise raises `TypeError`. -/
def pyKwargsCall (params required provided : List String) : Except String Unit :=
  if (∀ k ∈ provided, k ∈ params) ∧ (∀ k ∈ required, k ∈ provided) then .ok ()
  else .error "TypeError"

/-- Key set of a Python dict after the assignment `d[k] = v`. -/
def dictInsert (keys : List String) (k : String) : List String :=
  if k ∈ keys then keys else keys ++ [k]

theorem dictInsert_mem (keys : List String) (k : String) : k ∈ dictInsert keys k := by
  unfold dictInsert
  split
  · assumption
  · simp

theorem dictInsert_mem_of_mem (keys : List String) (k k' : String)
    (h : k ∈ keys) : k ∈ dictInsert keys k' := by
  unfold dictInsert
  split
  · exact h
  · exact List.mem_append_left _ h

/-- `representation_learner.py:94-98`: when `batch_extender is
QueueBatchExtender`, the engine replaces a `None` kwargs dict by `{}` and then
sets `batch_extender_kwargs['queue_dim']` and
`batch_extender_kwargs['device']`.  Only the key set matters for binding. -/
def repLearnerQueueExtenderKwargKeys (user : Option (List String)) : List String :=
  dictInsert (dictInsert (user.getD []) "queue_dim") "device"

/-- `representation_learner.py:100-104`: after the branch above the kwargs
dict is never `None`, so the engine always executes
`batch_extender(**batch_extender_kwargs)`. -/
def repLearnerConstructQueueExtender (user : Option (List String)) : Except String Unit :=
  pyKwargsCall queueBatchExtenderInitParams queueBatchExtenderInitRequired
    (repLearnerQueueExtenderKwargKeys user)

/-- C6: constructing the engine with the queue-based batch extender always
fails: `RepresentationLearner.__init__` always inserts a `device` key that
`QueueBatchExtender.__init__` does not accept, so the `**kwargs` call raises
`TypeError` for every user-supplied configuration. -/
theorem C6_queue_extender_construction_type_error (user : Option (List String)) :
    repLearnerConstructQueueExtender user = .error "TypeError" := by
  unfold repLearnerConstructQueueExtender pyKwargsCall
  rw [if_neg]
  rintro ⟨h1, -⟩
  have hdev : "device" ∈ repLearnerQueueExtenderKwargKeys user :=
    dictInsert_mem _ _
  have := h1 "device" hdev
  simp [queueBatchExtenderInitParams] at this

/-! ## The epoch loop of `RepresentationLearner.learn`
(`src/il_representations/algos/representation_learner.py:220-294`).

The per-step pipeline (augment, encode, decode, extend, loss, backward) is
abstracted into the scalar loss each batch produces; the control flow — step
counting, the `unit_test_max_train_steps` early exit, and the end-of-epoch
bookkeeping — is translated from the source. -/

/-- Modelled from the spec: `AverageMeter` (defined in
`il_representations/algos/utils.py`, which is not among the sources) keeps a
running average of the losses recorded during the epoch; at end of epoch its
`avg` field is their arithmetic mean. -/
def averageMeterAvg (ls : List ℚ) : ℚ := ls.sum / ls.length

/-- Bookkeeping state of one `learn` invocation. -/
structure LearnerRunState where
  encoderTrainMode : Bool
  decoderTrainMode : Bool
  optimizerSteps : ℕ
  schedulerSteps : ℕ
  lossRecord : List ℚ
  savedEpochs : List ℕ
deriving DecidableEq

/-- Configuration fields of the engine relevant to the loop. -/
structure LearnerConfig where
  hasScheduler : Bool
  save_interval : ℕ
  unit_test_max_train_steps : Option ℕ

/-- The within-epoch loop (`representation_learner.py:228-279`): batches are
enumerated from `step = 1`; each executed step records its loss (and performs
one optimizer update); after the body of step `step`, the loop breaks early
when `unit_test_max_train_steps` is set and `step >= unit_test_max_train_steps`.
Returns the losses of the steps actually executed, in order. -/
def stepsExecuted (cap : Option ℕ) : ℕ → List ℚ → List ℚ
  | _, [] => []
  | step, l :: rest =>
    l :: (match cap with
          | some c => if c ≤ step then [] else stepsExecuted cap (step + 1) rest
          | none => stepsExecuted cap (step + 1) rest)

/-- One epoch of `learn` (`representation_learner.py:220-292`): switch encoder
and decoder to training mode, run the step loop (one optimizer update per
executed step), then the end-of-epoch bookkeeping — advance the scheduler once
if one is configured, append the epoch's average loss to the record, switch
encoder and decoder to evaluation mode, and write a checkpoint when
`epoch % save_interval == 0`. -/
def runEpoch (cfg : LearnerConfig) (epoch : ℕ) (batchLosses : List ℚ)
    (s : LearnerRunState) : LearnerRunState :=
  let executed := stepsExecuted cfg.unit_test_max_train_steps 1 batchLosses
  let s1 : LearnerRunState :=
    { s with
      encoderTrainMode := true
      decoderTrainMode := true
      optimizerSteps := s.optimizerSteps + executed.length }
  let s2 := if cfg.hasScheduler
    then { s1 with schedulerSteps := s1.schedulerSteps + 1 } else s1
  let s3 := { s2 with
    lossRecord := s2.lossRecord ++ [averageMeterAvg executed]
    encoderTrainMode := false
    decoderTrainMode := false }
  if epoch % cfg.save_interval = 0
  then { s3 with savedEpochs := s3.savedEpochs ++ [epoch] } else s3

/-- `learn` (`representation_learner.py:206-294`): iterate `runEpoch` over the
epochs in order and return the per-epoch average-loss record. -/
def RepresentationLearner.learn (cfg : LearnerConfig)
    (epochLosses : List (List ℚ)) (s : LearnerRunState) : List ℚ :=
  (epochLosses.enum.foldl (fun acc el => runEpoch cfg el.1 el.2 acc) s).lossRecord

/-- C9: an epoch with step cap 2 over five batches performs exactly two
optimizer updates, and the end-of-epoch bookkeeping still runs exactly once:
one scheduler step (when a scheduler is configured), one entry — the average
of the two executed losses — appended to the loss record, encoder and decoder
switched to evaluation mode, and the checkpoint written exactly when the epoch
is on the save interval. -/
theorem C9_step_cap_two_of_five (cfg : LearnerConfig) (epoch : ℕ)
    (a b c d e : ℚ) (s : LearnerRunState)
    (hcap : cfg.unit_test_max_train_steps = some 2)
    (hsched : cfg.hasScheduler = true) :
    (runEpoch cfg epoch [a, b, c, d, e] s).optimizerSteps = s.optimizerSteps + 2 ∧
    (runEpoch cfg epoch [a, b, c, d, e] s).schedulerSteps = s.schedulerSteps + 1 ∧
    (runEpoch cfg epoch [a, b, c, d, e] s).lossRecord =
      s.lossRecord ++ [averageMeterAvg [a, b]] ∧
    (runEpoch cfg epoch [a, b, c, d, e] s).encoderTrainMode = false ∧
    (runEpoch cfg epoch [a, b, c, d, e] s).decoderTrainMode = false ∧
    (runEpoch cfg epoch [a, b, c, d, e] s).savedEpochs =
      s.savedEpochs ++ (if epoch % cfg.save_interval = 0 then [epoch] else []) := by
  have hexec : stepsExecuted cfg.unit_test_max_train_steps 1 [a, b, c, d, e] = [a, b] := by
    rw [hcap]
    rfl
  unfold runEpoch
  rw [hexec, hsched]
  by_cases hsave : epoch % cfg.save_interval = 0 <;>
    simp [hsave]

/-- Concrete instance for C9. -/
theorem C9_step_cap_two_of_five_witness :
    (runEpoch ⟨true, 1, some 2⟩ 0 [1, 2, 3, 4, 5]
        ⟨true, true, 0, 0, [], []⟩).optimizerSteps = 0 + 2 ∧
    (runEpoch ⟨true, 1, some 2⟩ 0 [1, 2, 3, 4, 5]
        ⟨true, true, 0, 0, [], []⟩).schedulerSteps = 0 + 1 ∧
    (runEpoch ⟨true, 1, some 2⟩ 0 [1, 2, 3, 4, 5]
        ⟨true, true, 0, 0, [], []⟩).lossRecord = [] ++ [averageMeterAvg [1, 2]] ∧
    (runEpoch ⟨true, 1, some 2⟩ 0 [1, 2, 3, 4, 5]
        ⟨true, true, 0, 0, [], []⟩).encoderTrainMode = false ∧
    (runEpoch ⟨true, 1, some 2⟩ 0 [1, 2, 3, 4, 5]
        ⟨true, true, 0, 0, [], []⟩).decoderTrainMode = false ∧
    (runEpoch ⟨true, 1, some 2⟩ 0 [1, 2, 3, 4, 5]
        ⟨true, true, 0, 0, [], []⟩).savedEpochs =
      [] ++ (if 0 % (1 : ℕ) = 0 then [(0 : ℕ)] else []) :=
  C9_step_cap_two_of_five ⟨true, 1, some 2⟩ 0 1 2 3 4 5
    ⟨true, true, 0, 0, [], []⟩ rfl rfl

/-! ## Augmenters (`algos/augmenters.py`)

`AugmentContextOnly.__call__(self, dataset)` and
`AugmentContextAndTarget.__call__(self, dataset)` each evaluate the names
`contexts` and `targets` in their bodies.  Those names are bound neither in
the local scope (whose only bindings are the parameters `self` and `dataset`),
nor at module level, nor among Python builtins, so evaluation is embedded as
an environment lookup that raises `NameError` on a missing name. -/

/-- A Python value in the scope of an augmenter call: either a module-level
object (transform library, helper function, class, ...) or a list of image
samples. -/
inductive PyVal (α : Type) where
  | obj : PyVal α
  | samples : List α → PyVal α

/-- The environment in which the body of `Augmenter.__call__` evaluates names:
the two parameter bindings, then the module-level names of `augmenters.py`
(`augmenters.py:1-14`: the imports, `DEFAULT_AUGMENTATIONS` and the three
classes). -/
def augmentCallScope (α : Type) (self dataset : PyVal α) : List (String × PyVal α) :=
  [("self", self), ("dataset", dataset),
   ("transforms", .obj), ("gaussian_blur", .obj), ("np", .obj),
   ("ABC", .obj), ("abstractmethod", .obj),
   ("DEFAULT_AUGMENTATIONS", .obj), ("Augmenter", .obj),
   ("AugmentContextAndTarget", .obj), ("AugmentContextOnly", .obj)]

/-- Evaluating a name: Python raises `NameError` when the name is bound in no
enclosing scope. -/
def pyLoadName {α : Type} (scope : List (String × PyVal α)) (n : String) :
    Except String (PyVal α) :=
  match scope.lookup n with
  | some v => .ok v
  | none => .error ("NameError: name '" ++ n ++ "' is not defined")

/-- `AugmentContextOnly.__call__` (`augmenters.py:31-33`): evaluates
`contexts`, maps the composed augmentation over it, and returns `targets`
unchanged.  `aug` is the composed `self.augment_op` (with the
`np.array` conversion). -/
def augmentContextOnlyCall {α : Type} (aug : α → α) (self dataset : PyVal α) :
    Except String (List α × PyVal α) := do
  let cv ← pyLoadName (augmentCallScope α self dataset) "contexts"
  let tv ← pyLoadName (augmentCallScope α self dataset) "targets"
  match cv with
  | .samples cs => return (cs.map aug, tv)
  | .obj => .error "TypeError: object is not iterable"

/-- `AugmentContextAndTarget.__call__` (`augmenters.py:25-28`): evaluates
`contexts` and `targets` and maps the composed augmentation over both. -/
def augmentContextAndTargetCall {α : Type} (aug : α → α) (self dataset : PyVal α) :
    Except String (List α × List α) := do
  let cv ← pyLoadName (augmentCallScope α self dataset) "contexts"
  let tv ← pyLoadName (augmentCallScope α self dataset) "targets"
  match cv, tv with
  | .samples cs, .samples ts => return (cs.map aug, ts.map aug)
  | _, _ => .error "TypeError: object is not iterable"

/-- C10: the claimed behaviour — context-only augmentation passing targets
through, and context-and-target augmentation of both — never happens: both
`__call__` bodies reference the unbound name `contexts` (their parameter is
`dataset`), so every call of either variant raises
`NameError: name 'contexts' is not defined`.  Evaluated here at a concrete
failing input (identity augmentation, a two-sample dataset). -/
theorem C10_augmenter_calls_raise_name_error :
    augmentContextOnlyCall (fun x : ℚ => x) .obj (.samples [1, 2]) =
      .error "NameError: name 'contexts' is not defined" ∧
    augmentContextAndTargetCall (fun x : ℚ => x) .obj (.samples [1, 2]) =
      .error "NameError: name 'contexts' is not defined" :=
  ⟨rfl, rfl⟩

/-! ## Projection-head loss decoders
(`src/il_representations/algos/decoders.py`)

Float tensors are modelled over `ℝ` (the forward pass uses `torch.exp`).
Autograd is modelled by tagging every distribution with the set of decoder
parameters present in its computation graph: `detach()` (and running under
`torch.no_grad()`) produces an empty set, and the backward pass can write a
nonzero gradient only into parameters inside the loss's set. -/

noncomputable section

abbrev RVec := List ℝ

abbrev RMat := List (List ℝ)

/-- Which of the two momentum networks a parameter belongs to. -/
inductive NetSide where
  | online : NetSide
  | target : NetSide
deriving DecidableEq

/-- Autograd identity of a decoder parameter: network side and position in
`parameters()` registration order. -/
abbrev ParamRef := NetSide × ℕ

/-- A `RepresentationDistribution` (the value built by
`independent_multivariate_normal`, modelled from the spec: it packages the
given mean and stddev tensors into a distribution with independent
coordinates).  `deps` is the set of decoder parameters in the autograd graph
of its tensors. -/
structure RDist where
  mean : RMat
  stddev : RMat
  deps : Finset ParamRef

/-- `tensor.detach()`: same values, removed from the autograd graph. -/
def RDist.detach (d : RDist) : RDist := { d with deps := ∅ }

/-- `torch.nn.Linear`: weight of shape `out_features × in_features` plus a
bias vector. -/
structure Linear where
  weight : RMat
  bias : RVec

def dotR (xs ys : RVec) : ℝ := (List.zipWith (fun a b => a * b) xs ys).sum

def Linear.apply (l : Linear) (x : RVec) : RVec :=
  List.zipWith (fun row b => dotR row x + b) l.weight l.bias

/-- `torch.nn.ReLU`, elementwise `max(x, 0)`. -/
def reluVec (x : RVec) : RVec := x.map (fun a => max a 0)

/-- The learned parameters of a `ProjectionHead` (`decoders.py:79-92`):
`shared_mlp = Sequential(Linear(representation_dim, 256), ReLU(),
Linear(256, 256), ReLU())`, `mean_layer = Linear(256, projection_dim)`, and —
only when `learn_scale` — `scale_layer = Linear(256, projection_dim)`
(otherwise `scale_layer` is the bound method `ones_like_projection_dim`,
which registers no parameters). -/
structure ProjectionHeadNet where
  fc1 : Linear
  fc2 : Linear
  mean_layer : Linear
  scale_layer : Option Linear

/-- `parameters()` of a `ProjectionHead` in registration order:
`shared_mlp[0]`, `shared_mlp[2]`, `mean_layer`, then `scale_layer` when it is
a module.  A bias is listed as a one-row matrix. -/
def ProjectionHeadNet.paramsList (n : ProjectionHeadNet) : List RMat :=
  [n.fc1.weight, [n.fc1.bias], n.fc2.weight, [n.fc2.bias],
   n.mean_layer.weight, [n.mean_layer.bias]] ++
  (match n.scale_layer with
   | some l => [l.weight, [l.bias]]
   | none => [])

/-- `ProjectionHead` (`decoders.py:79-98`). -/
structure ProjectionHead where
  representation_dim : ℕ
  projection_dim : ℕ
  sample : Bool
  net : ProjectionHeadNet

/-- `LossDecoder.get_vector` (`decoders.py:49-53`): collapse a distribution to
a batch of vectors, by the random draw `rsample()` when `sample` is set
(modelled by the ambient sampler `ω`), by the mean otherwise. -/
def getVector (sample : Bool) (ω : RDist → RMat) (z : RDist) : RMat :=
  if sample then ω z else z.mean

/-- `LossDecoder.ones_like_projection_dim` (`decoders.py:55-56`):
`torch.ones(x.shape[0], projection_dim)`. -/
def onesLikeProjectionDim (projection_dim : ℕ) (x : RMat) : RMat :=
  List.replicate x.length (List.replicate projection_dim 1)

/-- `ProjectionHead.forward` (`decoders.py:94-98`): collapse the input
distribution, run the shared two-layer ReLU network, produce the mean via
`mean_layer`, and the stddev as `torch.exp` of `scale_layer` output — the
learned linear map when `learn_scale`, the all-ones tensor otherwise.
`refs` is the autograd identity of this head's parameters; the output's graph
contains the input's graph and the head's parameters. -/
def ProjectionHead.forward (ph : ProjectionHead) (refs : Finset ParamRef)
    (ω : RDist → RMat) (z : RDist) : RDist :=
  let zv := getVector ph.sample ω z
  let shared := zv.map (fun v => reluVec (ph.net.fc2.apply (reluVec (ph.net.fc1.apply v))))
  let scaleOut := match ph.net.scale_layer with
    | some l => shared.map l.apply
    | none => onesLikeProjectionDim ph.projection_dim shared
  { mean := shared.map ph.net.mean_layer.apply
    stddev := scaleOut.map (fun row => row.map Real.exp)
    deps := z.deps ∪ refs }

/-- The EMA scalar rule of `decoders.py:130`:
`param_k.data * momentum_weight + param_q.data * (1 - momentum_weight)`,
elementwise on vectors. -/
def emaVec (m : ℝ) (k q : RVec) : RVec :=
  List.zipWith (fun a b => a * m + b * (1 - m)) k q

def emaMat (m : ℝ) (k q : RMat) : RMat := List.zipWith (emaVec m) k q

def emaLinear (m : ℝ) (k q : Linear) : Linear :=
  { weight := emaMat m k.weight q.weight, bias := emaVec m k.bias q.bias }

/-- `_momentum_update_key_encoder` (`decoders.py:127-130`) zips
`context_decoder.parameters()` with `target_decoder.parameters()` and updates
each target parameter in place.  `zip` truncates at the shorter parameter
list, so a trailing unpaired target parameter would stay untouched; paired
parameters line up field by field because the two heads are structural
copies. -/
def emaNet (m : ℝ) (k q : ProjectionHeadNet) : ProjectionHeadNet :=
  { fc1 := emaLinear m k.fc1 q.fc1
    fc2 := emaLinear m k.fc2 q.fc2
    mean_layer := emaLinear m k.mean_layer q.mean_layer
    scale_layer :=
      match k.scale_layer, q.scale_layer with
      | some kl, some ql => some (emaLinear m kl ql)
      | _, _ => k.scale_layer }

/-- `MomentumProjectionHead` (`decoders.py:101-130`). -/
structure MomentumProjectionHead where
  momentum_weight : ℝ
  context_decoder : ProjectionHead
  target_decoder : ProjectionHead
  targetRequiresGrad : Bool

/-- `MomentumProjectionHead.__init__` (`decoders.py:102-109`): build the
online head, `deepcopy` it into the target head (same values, fresh parameter
objects), and set `requires_grad = False` on every target parameter.
The freshly initialised online head is the argument `head`. -/
def MomentumProjectionHead.init (momentum_weight : ℝ) (head : ProjectionHead) :
    MomentumProjectionHead :=
  { momentum_weight := momentum_weight
    context_decoder := head
    target_decoder := head
    targetRequiresGrad := false }

/-- The autograd identities of one side's parameter list. -/
def sideRefs (s : NetSide) (n : ℕ) : Finset ParamRef :=
  (Finset.range n).image (fun i => (s, i))

/-- `_momentum_update_key_encoder` (`decoders.py:127-130`) as a state
transition. -/
def MomentumProjectionHead.momentumUpdate (h : MomentumProjectionHead) :
    MomentumProjectionHead :=
  { h with target_decoder := { h.target_decoder with
      net := emaNet h.momentum_weight h.target_decoder.net h.context_decoder.net } }

/-- `decode_context` (`decoders.py:111-112`): forward through the online
head. -/
def MomentumProjectionHead.decode_context (h : MomentumProjectionHead)
    (ω : RDist → RMat) (z : RDist) : RDist :=
  h.context_decoder.forward
    (sideRefs .online h.context_decoder.net.paramsList.length) ω z

/-- `decode_target` (`decoders.py:114-125`): under `torch.no_grad()`, first
`_momentum_update_key_encoder`, then the forward pass through the
(already-updated) target head, and finally a detached copy of the result
(`no_grad` plus the explicit `.detach()` leave the output with an empty
autograd graph). -/
def MomentumProjectionHead.decode_target (h : MomentumProjectionHead)
    (ω : RDist → RMat) (z : RDist) : MomentumProjectionHead × RDist :=
  let h' := h.momentumUpdate
  (h', RDist.detach (h'.target_decoder.forward
    (sideRefs .target h'.target_decoder.net.paramsList.length) ω z))

/-- `loss.backward()`: the autograd engine writes the computed gradient `g p`
into a leaf parameter `p` only when `p` is in the loss's graph; a parameter
outside the graph keeps gradient `0` (after `optimizer.zero_grad()`). -/
def gradAfterBackward (lossDeps : Finset ParamRef) (g : ParamRef → ℝ)
    (p : ParamRef) : ℝ :=
  if p ∈ lossDeps then g p else 0

/-- Structural-copy heads have matching parameter lists, so the field-wise EMA
update equals the lock-step `zip` over `parameters()`. -/
theorem paramsList_emaNet (m : ℝ) (k q : ProjectionHeadNet)
    (hmatch : k.scale_layer.isSome = q.scale_layer.isSome) :
    (emaNet m k q).paramsList =
      List.zipWith (emaMat m) k.paramsList q.paramsList := by
  cases hk : k.scale_layer <;> cases hq : q.scale_layer <;>
    simp_all [emaNet, ProjectionHeadNet.paramsList, emaLinear, emaMat]

/-- C1: every `decode_target` call leaves the online head and the momentum
weight unchanged, updates the target head's parameter list by the EMA rule
`target ← momentum_weight * target + (1 - momentum_weight) * online` applied
per matching parameter pair in lock-step `parameters()` order, and only then
produces its output: the returned distribution is the (detached) forward pass
through the already-updated target head.  This holds for every call,
including the first. -/
theorem C1_ema_update_precedes_target_forward (h : MomentumProjectionHead)
    (ω : RDist → RMat) (z : RDist)
    (hmatch : h.target_decoder.net.scale_layer.isSome =
      h.context_decoder.net.scale_layer.isSome) :
    (h.decode_target ω z).1.context_decoder = h.context_decoder ∧
    (h.decode_target ω z).1.momentum_weight = h.momentum_weight ∧
    (h.decode_target ω z).1.target_decoder.net.paramsList =
      List.zipWith (emaMat h.momentum_weight)
        h.target_decoder.net.paramsList h.context_decoder.net.paramsList ∧
    (h.decode_target ω z).2 =
      RDist.detach ((h.decode_target ω z).1.target_decoder.forward
        (sideRefs .target
          (h.decode_target ω z).1.target_decoder.net.paramsList.length) ω z) :=
  ⟨rfl, rfl, paramsList_emaNet _ _ _ hmatch, rfl⟩

/-- An online head with concrete parameters (`learn_scale = False`). -/
def onlineHeadEx : ProjectionHead :=
  { representation_dim := 1, projection_dim := 1, sample := false,
    net := { fc1 := ⟨[[1]], [0]⟩, fc2 := ⟨[[1]], [0]⟩,
             mean_layer := ⟨[[1]], [0]⟩, scale_layer := none } }

/-- A drifted target head with the same structure but different values. -/
def targetHeadEx : ProjectionHead :=
  { representation_dim := 1, projection_dim := 1, sample := false,
    net := { fc1 := ⟨[[3]], [1]⟩, fc2 := ⟨[[3]], [1]⟩,
             mean_layer := ⟨[[3]], [1]⟩, scale_layer := none } }

/-- A momentum head mid-training. -/
def momentumHeadEx : MomentumProjectionHead :=
  { momentum_weight := 1 / 2, context_decoder := onlineHeadEx,
    target_decoder := targetHeadEx, targetRequiresGrad := false }

/-- A concrete input distribution (batch of one). -/
def zDistEx : RDist := { mean := [[2]], stddev := [[1]], deps := ∅ }

/-- Concrete instance for C1. -/
theorem C1_ema_update_precedes_target_forward_witness :
    (momentumHeadEx.decode_target (fun _ => [[0]]) zDistEx).1.context_decoder =
      momentumHeadEx.context_decoder ∧
    (momentumHeadEx.decode_target (fun _ => [[0]]) zDistEx).1.momentum_weight =
      momentumHeadEx.momentum_weight ∧
    (momentumHeadEx.decode_target (fun _ => [[0]]) zDistEx).1.target_decoder.net.paramsList =
      List.zipWith (emaMat momentumHeadEx.momentum_weight)
        momentumHeadEx.target_decoder.net.paramsList
        momentumHeadEx.context_decoder.net.paramsList ∧
    (momentumHeadEx.decode_target (fun _ => [[0]]) zDistEx).2 =
      RDist.detach
        ((momentumHeadEx.decode_target (fun _ => [[0]]) zDistEx).1.target_decoder.forward
          (sideRefs .target
            (momentumHeadEx.decode_target (fun _ => [[0]])
              zDistEx).1.target_decoder.net.paramsList.length)
          (fun _ => [[0]]) zDistEx) :=
  C1_ema_update_precedes_target_forward momentumHeadEx (fun _ => [[0]]) zDistEx rfl

/-- C2: at construction the target head is a deep copy of the online head
with gradients disabled; the output of `decode_target` is detached (its
autograd graph is empty); hence after a backward pass through any loss whose
graph only contains `decode_target`'s output, every target-network parameter
has zero gradient; and a `decode_target` call changes the target parameters
exactly by the EMA rule (the online head and everything else are
untouched). -/
theorem C2_target_gradient_isolation (head : ProjectionHead) (m : ℝ)
    (h : MomentumProjectionHead) (ω : RDist → RMat) (z : RDist)
    (lossDeps : Finset ParamRef) (g : ParamRef → ℝ) (i : ℕ)
    (hloss : lossDeps ⊆ (h.decode_target ω z).2.deps) :
    (MomentumProjectionHead.init m head).target_decoder = head ∧
    (MomentumProjectionHead.init m head).context_decoder = head ∧
    (MomentumProjectionHead.init m head).targetRequiresGrad = false ∧
    (h.decode_target ω z).2.deps = ∅ ∧
    gradAfterBackward lossDeps g (NetSide.target, i) = 0 ∧
    (h.decode_target ω z).1.target_decoder.net =
      emaNet h.momentum_weight h.target_decoder.net h.context_decoder.net ∧
    (h.decode_target ω z).1.context_decoder = h.context_decoder := by
  refine ⟨rfl, rfl, rfl, rfl, ?_, rfl, rfl⟩
  have hempty : lossDeps = ∅ := Finset.subset_empty.mp hloss
  simp [gradAfterBackward, hempty]

/-- Concrete instance for C2. -/
theorem C2_target_gradient_isolation_witness :
    (MomentumProjectionHead.init (99 / 100) onlineHeadEx).target_decoder = onlineHeadEx ∧
    (MomentumProjectionHead.init (99 / 100) onlineHeadEx).context_decoder = onlineHeadEx ∧
    (MomentumProjectionHead.init (99 / 100) onlineHeadEx).targetRequiresGrad = false ∧
    (momentumHeadEx.decode_target (fun _ => [[0]]) zDistEx).2.deps = ∅ ∧
    gradAfterBackward ∅ (fun _ => 1) (NetSide.target, 0) = 0 ∧
    (momentumHeadEx.decode_target (fun _ => [[0]]) zDistEx).1.target_decoder.net =
      emaNet momentumHeadEx.momentum_weight momentumHeadEx.target_decoder.net
        momentumHeadEx.context_decoder.net ∧
    (momentumHeadEx.decode_target (fun _ => [[0]]) zDistEx).1.context_decoder =
      momentumHeadEx.context_decoder :=
  C2_target_gradient_isolation onlineHeadEx (99 / 100) momentumHeadEx
    (fun _ => [[0]]) zDistEx ∅ (fun _ => 1) 0 (Finset.empty_subset _)

/-- C8 as stated is false: with `learn_scale = False` the spread returned by
`ProjectionHead.forward` is not the all-ones vector — the code applies
`torch.exp` to the output of `ones_like_projection_dim`
(`decoders.py:92,98`), producing the constant `exp(1) ≈ 2.718`.  Concrete
input: a head with `projection_dim = 1`, zero weights, `learn_scale = False`,
and a batch-one input; the spread is `[[exp 1]] ≠ [[1]]`. -/
theorem C8_counterexample :
    (onlineHeadEx.forward ∅ (fun _ => [[0]]) zDistEx).stddev ≠ [[1]] := by
  intro heq
  have hred : (onlineHeadEx.forward ∅ (fun _ => [[0]]) zDistEx).stddev =
      [[Real.exp 1]] := by
    simp [ProjectionHead.forward, onlineHeadEx, zDistEx, getVector,
      onesLikeProjectionDim, List.replicate]
  rw [hred] at heq
  have hh := congrArg (fun l => l.headI.headI) heq
  simp at hh

/-- C8 amended: with `learn_scale = False` the spread is the constant vector
with every coordinate `exp 1` (the exponential of the all-ones vector), of
the projection dimension, for every input distribution, sampler and batch
size; with `learn_scale = True` it is the exponential of the learned linear
map of the shared hidden representation; in both cases it is strictly
positive in every coordinate. -/
theorem C8_projection_head_spread (ph : ProjectionHead) (refs : Finset ParamRef)
    (ω : RDist → RMat) (z : RDist) :
    (ph.net.scale_layer = none →
      (ph.forward refs ω z).stddev =
        List.replicate (getVector ph.sample ω z).length
          (List.replicate ph.projection_dim (Real.exp 1))) ∧
    (∀ l, ph.net.scale_layer = some l →
      (ph.forward refs ω z).stddev =
        ((getVector ph.sample ω z).map
          (fun v => reluVec (ph.net.fc2.apply (reluVec (ph.net.fc1.apply v))))).map
          (fun row => (l.apply row).map Real.exp)) ∧
    (∀ row ∈ (ph.forward refs ω z).stddev, ∀ x ∈ row, 0 < x) := by
  refine ⟨?_, ?_, ?_⟩
  · intro hnone
    simp [ProjectionHead.forward, hnone, onesLikeProjectionDim, List.map_replicate]
  · intro l hsome
    simp [ProjectionHead.forward, hsome, List.map_map]
  · intro row hrow x hx
    simp only [ProjectionHead.forward] at hrow
    obtain ⟨r, -, rfl⟩ := List.mem_map.mp hrow
    obtain ⟨y, -, rfl⟩ := List.mem_map.mp hx
    exact Real.exp_pos y

/-- Concrete instance for C8's amended statement: the `learn_scale = False`
branch at a batch-one input, plus positivity. -/
theorem C8_projection_head_spread_witness :
    (onlineHeadEx.forward ∅ (fun _ => [[0]]) zDistEx).stddev =
      List.replicate 1 (List.replicate 1 (Real.exp 1)) ∧
    (∀ row ∈ (onlineHeadEx.forward ∅ (fun _ => [[0]]) zDistEx).stddev,
      ∀ x ∈ row, 0 < x) := by
  have h := C8_projection_head_spread onlineHeadEx ∅ (fun _ => [[0]]) zDistEx
  exact ⟨h.1 rfl, h.2.2⟩

end

end ILRep
